import Mathlib

/-!
Verification development for the process-orchestration core of the Central
repository (src/src-tauri/src): the session registry (sidecar/manager.rs),
its wire protocol (sidecar/types.rs), the event relay (read_worker_output),
and the PTY session registry (pty/manager.rs, pty/types.rs).

The Rust code is shallowly embedded: the mutex-guarded HashMap registries
become association lists with explicit state passing, OS interactions
(spawn, pipe writes, kills) become an environment record of outcomes plus
an explicit effect trace, and serde_json becomes an executable JSON model.
Rust f64 wire values are modelled as rationals: the claims under study
never compute with them, they only carry or omit them.
-/

namespace Central

/-! ## JSON model (for serde_json) -/

/-- Model of serde_json::Value. Numbers are modelled as rationals. -/
inductive Json where
  | null
  | bool (b : Bool)
  | num (q : Rat)
  | str (s : String)
  | arr (xs : List Json)
  | obj (fields : List (String × Json))

/-- First-match association-list lookup, the model of HashMap/object key lookup. -/
def assocLookup {α : Type} : List (String × α) → String → Option α
  | [], _ => none
  | (k, v) :: rest, key => if k = key then some v else assocLookup rest key

/-- Remove the entry of a key from an association list (HashMap::remove). -/
def assocErase {α : Type} (l : List (String × α)) (key : String) : List (String × α) :=
  l.filter fun p => p.1 != key

/-- Keys of a JSON object (empty for non-objects). -/
def Json.objKeys : Json → List String
  | .obj fs => fs.map Prod.fst
  | _ => []

/-! ### JSON text parsing (model of serde_json::from_str, value side) -/

/-- ASCII whitespace accepted between JSON tokens. -/
def isJsonWs (c : Char) : Bool :=
  c == ' ' || c == '\t' || c == '\n' || c == '\r'

/-- Drop leading inter-token whitespace. -/
def skipWs (cs : List Char) : List Char :=
  cs.dropWhile isJsonWs

/-- Hex digit value for string escapes. -/
def hexVal (c : Char) : Option Nat :=
  if '0' ≤ c ∧ c ≤ '9' then some (c.toNat - 48)
  else if 'a' ≤ c ∧ c ≤ 'f' then some (c.toNat - 97 + 10)
  else if 'A' ≤ c ∧ c ≤ 'F' then some (c.toNat - 65 + 10)
  else none

/-- Parse the body of a JSON string literal after the opening quote,
returning the decoded string and the remaining input. -/
def parseStrBody : List Char → Option (String × List Char)
  | [] => none
  | '"' :: rest => some ("", rest)
  | '\\' :: e :: rest =>
    match e with
    | '"' => (parseStrBody rest).map fun r => (String.singleton '"' ++ r.1, r.2)
    | '\\' => (parseStrBody rest).map fun r => (String.singleton '\\' ++ r.1, r.2)
    | '/' => (parseStrBody rest).map fun r => (String.singleton '/' ++ r.1, r.2)
    | 'n' => (parseStrBody rest).map fun r => (String.singleton '\n' ++ r.1, r.2)
    | 't' => (parseStrBody rest).map fun r => (String.singleton '\t' ++ r.1, r.2)
    | 'r' => (parseStrBody rest).map fun r => (String.singleton '\r' ++ r.1, r.2)
    | 'b' => (parseStrBody rest).map fun r => (String.singleton '\x08' ++ r.1, r.2)
    | 'f' => (parseStrBody rest).map fun r => (String.singleton '\x0c' ++ r.1, r.2)
    | 'u' =>
      match rest with
      | h1 :: h2 :: h3 :: h4 :: rest2 =>
        match hexVal h1, hexVal h2, hexVal h3, hexVal h4 with
        | some a, some b, some c, some d =>
          let n := ((a * 16 + b) * 16 + c) * 16 + d
          (parseStrBody rest2).map fun r =>
            (String.singleton (Char.ofNat n) ++ r.1, r.2)
        | _, _, _, _ => none
      | _ => none
    | _ => none
  | c :: rest => (parseStrBody rest).map fun r => (String.singleton c ++ r.1, r.2)

/-- Numeric value of a digit run. -/
def digitsVal (ds : List Char) : Nat :=
  ds.foldl (fun acc c => acc * 10 + (c.toNat - 48)) 0

/-- Parse a JSON number (sign, integer part, optional fraction and exponent)
into a rational, returning the remaining input. -/
def parseNum (cs : List Char) : Option (Json × List Char) :=
  let (sign, cs1) : Int × List Char :=
    match cs with
    | '-' :: rest => (-1, rest)
    | _ => (1, cs)
  let intDigits := cs1.takeWhile Char.isDigit
  let cs2 := cs1.dropWhile Char.isDigit
  if intDigits = [] then none
  else
    let (fracDigits, cs3) : List Char × List Char :=
      match cs2 with
      | '.' :: rest => (rest.takeWhile Char.isDigit, rest.dropWhile Char.isDigit)
      | _ => ([], cs2)
    if cs2 ≠ [] ∧ cs2.head? = some '.' ∧ fracDigits = [] then none
    else
      let parseExp : List Char → Option (Int × List Char) := fun l =>
        match l with
        | 'e' :: rest | 'E' :: rest =>
          let (esign, l1) : Int × List Char :=
            match rest with
            | '+' :: r => (1, r)
            | '-' :: r => (-1, r)
            | _ => (1, rest)
          let eDigits := l1.takeWhile Char.isDigit
          if eDigits = [] then none
          else some (esign * (digitsVal eDigits : Int), l1.dropWhile Char.isDigit)
        | _ => some (0, l)
      match parseExp cs3 with
      | none => none
      | some (e, cs4) =>
        let mantissa : Int := (digitsVal (intDigits ++ fracDigits) : Int)
        let q : Rat :=
          sign * (mantissa : Rat) / ((10 : Rat) ^ fracDigits.length) * (10 : Rat) ^ e
        some (.num q, cs4)

/-- Parsing mode: a whole value, the elements of an array after `[`, or the
fields of an object after the opening brace. -/
inductive PMode where
  | val
  | arrElems
  | objFields

/-- Fuel-indexed JSON parser (model of serde_json text parsing). Structural
in the fuel so that it evaluates by kernel reduction. -/
def parseF : Nat → PMode → List Char → Option (Json × List Char)
  | 0, _, _ => none
  | f + 1, .val, cs =>
    match skipWs cs with
    | 'n' :: 'u' :: 'l' :: 'l' :: rest => some (.null, rest)
    | 't' :: 'r' :: 'u' :: 'e' :: rest => some (.bool true, rest)
    | 'f' :: 'a' :: 'l' :: 's' :: 'e' :: rest => some (.bool false, rest)
    | '"' :: rest => (parseStrBody rest).map fun r => (.str r.1, r.2)
    | '[' :: rest =>
      (match skipWs rest with
       | ']' :: r => some (.arr [], r)
       | cs2 => parseF f .arrElems cs2)
    | '\x7b' :: rest =>
      (match skipWs rest with
       | '\x7d' :: r => some (.obj [], r)
       | cs2 => parseF f .objFields cs2)
    | cs1 => parseNum cs1
  | f + 1, .arrElems, cs =>
    match parseF f .val cs with
    | none => none
    | some (v, r) =>
      match skipWs r with
      | ',' :: r2 =>
        (match parseF f .arrElems r2 with
         | some (.arr xs, r3) => some (.arr (v :: xs), r3)
         | _ => none)
      | ']' :: r2 => some (.arr [v], r2)
      | _ => none
  | f + 1, .objFields, cs =>
    match skipWs cs with
    | '"' :: r =>
      (match parseStrBody r with
       | none => none
       | some (k, r1) =>
         match skipWs r1 with
         | ':' :: r2 =>
           (match parseF f .val r2 with
            | none => none
            | some (v, r3) =>
              match skipWs r3 with
              | ',' :: r4 =>
                (match parseF f .objFields r4 with
                 | some (.obj fs, r5) => some (.obj ((k, v) :: fs), r5)
                 | _ => none)
              | '\x7d' :: r4 => some (.obj [(k, v)], r4)
              | _ => none)
         | _ => none)
    | _ => none

/-- Model of serde_json::from_str for values: parse one JSON value and
require that only whitespace follows it. -/
def parseJsonStr (s : String) : Option Json :=
  match parseF (2 * s.length + 2) .val s.toList with
  | some (v, rest) => if skipWs rest = [] then some v else none
  | none => none

/-! ### JSON rendering (model of serde_json::to_string) -/

/-- Escape one character for a JSON string literal. -/
def escapeChar (c : Char) : String :=
  if c = '"' then "\\\""
  else if c = '\\' then "\\\\"
  else if c = '\n' then "\\n"
  else if c = '\r' then "\\r"
  else if c = '\t' then "\\t"
  else if c.toNat < 32 then
    "\\u00" ++ String.singleton ((hexChars).getD (c.toNat / 16) '0')
      ++ String.singleton ((hexChars).getD (c.toNat % 16) '0')
  else String.singleton c
where hexChars : List Char := "0123456789abcdef".toList

/-- Render a string as a JSON string literal. -/
def renderString (s : String) : String :=
  "\"" ++ String.join (s.toList.map escapeChar) ++ "\""

/-- Render a rational carried by the JSON model. The exact decimal formatting
of an f64 is abstracted; no claim inspects rendered numbers. -/
def renderRat (q : Rat) : String :=
  if q.den = 1 then toString q.num else toString q.num ++ "/" ++ toString q.den

/-- Render a JSON value to text (model of serde_json::to_string). -/
def Json.render : Json → String
  | .null => "null"
  | .bool b => if b then "true" else "false"
  | .num q => renderRat q
  | .str s => renderString s
  | .arr xs =>
    "[" ++ String.intercalate "," (xs.attach.map fun x => Json.render x.1) ++ "]"
  | .obj fs =>
    "\x7b" ++ String.intercalate ","
        (fs.attach.map fun f => renderString f.1.1 ++ ":" ++ Json.render f.1.2)
      ++ "\x7d"
termination_by j => sizeOf j
decreasing_by
  · have h := List.sizeOf_lt_of_mem x.2
    simp only [Json.arr.sizeOf_spec]
    omega
  · have h1 := List.sizeOf_lt_of_mem f.2
    have h2 : sizeOf f.1.2 < sizeOf f.1 := by
      obtain ⟨⟨k, v⟩, hf⟩ := f
      simp only [Prod.mk.sizeOf_spec]
      omega
    simp only [Json.obj.sizeOf_spec]
    omega

/-! ## Wire protocol (sidecar/types.rs) -/

/-- Commands sent from Rust to the per-session worker via stdin JSON-lines
(sidecar/types.rs, enum SidecarCommand). -/
inductive SidecarCommand where
  | StartSession (session_id : String) (project_path : String) (prompt : String)
      (model : Option String) (max_budget_usd : Option Rat)
      (resume_session_id : Option String)
  | SendMessage (session_id : String) (message : String)
  | AbortSession (session_id : String)
  | EndSession (session_id : String)
  | ToolApprovalResponse (request_id : String) (allowed : Bool)
      (updated_permissions : Option Json)

/-- Events received from the per-session worker via stdout JSON-lines
(sidecar/types.rs, enum SidecarEvent). -/
inductive SidecarEvent where
  | SessionStarted (session_id : String) (sdk_session_id : String)
  | Message (session_id : String) (role : String) (content : String)
      (thinking : Option String) (tool_calls : Option Json) (usage : Option Json)
  | ToolUse (session_id : String) (tool_name : String) (input : Json)
  | ToolResult (session_id : String) (tool_name : String) (output : String)
  | ToolApprovalRequest (session_id : String) (request_id : String)
      (tool_name : String) (input : Json) (suggestions : Option Json)
  | ToolProgress (session_id : String) (tool_name : String) (elapsed_seconds : Rat)
  | SessionCompleted (session_id : String) (sdk_session_id : String)
      (total_cost_usd : Option Rat) (duration_ms : Option Rat)
  | SessionFailed (session_id : String) (error : String)
  | Error (message : String)

/-- Payload emitted to the frontend via Tauri events (sidecar/types.rs). -/
structure AgentEventPayload where
  event : SidecarEvent

/-- A `skip_serializing_if Option.is_none` field: present only when Some. -/
def optEntry (k : String) (v : Option Json) : List (String × Json) :=
  match v with
  | some j => [(k, j)]
  | none => []

/-- Model of serde serialization of SidecarCommand: internally tagged with
`type` in snake_case, camelCase field keys, optional fields omitted when
None (never serialized as null). -/
def SidecarCommand.toJson : SidecarCommand → Json
  | .StartSession sid pp prompt model mbu rsid =>
    .obj ([("type", .str "start_session"), ("sessionId", .str sid),
           ("projectPath", .str pp), ("prompt", .str prompt)]
      ++ optEntry "model" (model.map .str)
      ++ optEntry "maxBudgetUsd" (mbu.map .num)
      ++ optEntry "resumeSessionId" (rsid.map .str))
  | .SendMessage sid msg =>
    .obj [("type", .str "send_message"), ("sessionId", .str sid),
          ("message", .str msg)]
  | .AbortSession sid =>
    .obj [("type", .str "abort_session"), ("sessionId", .str sid)]
  | .EndSession sid =>
    .obj [("type", .str "end_session"), ("sessionId", .str sid)]
  | .ToolApprovalResponse rid allowed up =>
    .obj ([("type", .str "tool_approval_response"), ("requestId", .str rid),
           ("allowed", .bool allowed)]
      ++ optEntry "updatedPermissions" up)

/-- Required string field of an object (serde: missing or wrong type is an
error). -/
def getStr (fs : List (String × Json)) (k : String) : Option String :=
  match assocLookup fs k with
  | some (.str s) => some s
  | _ => none

/-- Required numeric field of an object. -/
def getNum (fs : List (String × Json)) (k : String) : Option Rat :=
  match assocLookup fs k with
  | some (.num q) => some q
  | _ => none

/-- Required serde_json::Value field: any JSON value, including null. -/
def getVal (fs : List (String × Json)) (k : String) : Option Json :=
  assocLookup fs k

/-- Optional string field: absent or null is None, a string is Some, any
other shape is a deserialization error. -/
def optStr (fs : List (String × Json)) (k : String) : Option (Option String) :=
  match assocLookup fs k with
  | none => some none
  | some .null => some none
  | some (.str s) => some (some s)
  | some _ => none

/-- Optional numeric field. -/
def optNum (fs : List (String × Json)) (k : String) : Option (Option Rat) :=
  match assocLookup fs k with
  | none => some none
  | some .null => some none
  | some (.num q) => some (some q)
  | some _ => none

/-- Optional serde_json::Value field: absent or null is None. -/
def optVal (fs : List (String × Json)) (k : String) : Option (Option Json) :=
  match assocLookup fs k with
  | none => some none
  | some .null => some none
  | some v => some (some v)

/-- Model of serde deserialization of SidecarEvent: internally tagged by the
`type` key (snake_case), unknown keys ignored, missing required fields are
an error, optional fields default to None. -/
def SidecarEvent.fromJson? (j : Json) : Option SidecarEvent :=
  match j with
  | .obj fs =>
    match getStr fs "type" with
    | some "session_started" => do
      let sid ← getStr fs "sessionId"
      let sdk ← getStr fs "sdkSessionId"
      some (.SessionStarted sid sdk)
    | some "message" => do
      let sid ← getStr fs "sessionId"
      let role ← getStr fs "role"
      let content ← getStr fs "content"
      let th ← optStr fs "thinking"
      let tc ← optVal fs "toolCalls"
      let us ← optVal fs "usage"
      some (.Message sid role content th tc us)
    | some "tool_use" => do
      let sid ← getStr fs "sessionId"
      let tn ← getStr fs "toolName"
      let inp ← getVal fs "input"
      some (.ToolUse sid tn inp)
    | some "tool_result" => do
      let sid ← getStr fs "sessionId"
      let tn ← getStr fs "toolName"
      let out ← getStr fs "output"
      some (.ToolResult sid tn out)
    | some "tool_approval_request" => do
      let sid ← getStr fs "sessionId"
      let rid ← getStr fs "requestId"
      let tn ← getStr fs "toolName"
      let inp ← getVal fs "input"
      let sug ← optVal fs "suggestions"
      some (.ToolApprovalRequest sid rid tn inp sug)
    | some "tool_progress" => do
      let sid ← getStr fs "sessionId"
      let tn ← getStr fs "toolName"
      let es ← getNum fs "elapsedSeconds"
      some (.ToolProgress sid tn es)
    | some "session_completed" => do
      let sid ← getStr fs "sessionId"
      let sdk ← getStr fs "sdkSessionId"
      let tcu ← optNum fs "totalCostUsd"
      let dm ← optNum fs "durationMs"
      some (.SessionCompleted sid sdk tcu dm)
    | some "session_failed" => do
      let sid ← getStr fs "sessionId"
      let err ← getStr fs "error"
      some (.SessionFailed sid err)
    | some "error" => do
      let msg ← getStr fs "message"
      some (.Error msg)
    | _ => none
  | _ => none

/-- Model of Rust str::trim as used by the relay (ASCII whitespace; the
Unicode extension of char::is_whitespace is irrelevant to the JSON lines
exchanged here). -/
def isRustWs (c : Char) : Bool :=
  c == ' ' || c == '\t' || c == '\n' || c == '\r' || c == '\x0b' || c == '\x0c'

/-- Rust str::trim: strip leading and trailing whitespace. -/
def rustTrim (s : String) : String :=
  ⟨((s.toList.dropWhile isRustWs).reverse.dropWhile isRustWs).reverse⟩

/-- Decode one trimmed stdout line as an event:
serde_json::from_str::<SidecarEvent>. -/
def decodeEvent (s : String) : Option SidecarEvent :=
  (parseJsonStr s).bind SidecarEvent.fromJson?

/-! ## Session registry (sidecar/manager.rs)

The HashMap of SessionWorker values becomes an association list from
session id to the child process id; OS interactions are recorded in an
effect trace and their success or failure is dictated by an environment
record, so that every control-flow path of the Rust code is represented. -/

/-- Child process identifier (Child handle model). -/
abbrev Pid := Nat

/-- Observable OS effects of a registry operation. -/
inductive Eff where
  | spawn (pid : Pid)
  | writeStdin (pid : Pid) (data : String)
  | kill (pid : Pid)
  | wait (pid : Pid)
deriving DecidableEq

/-- Whether an effect writes bytes to a worker stdin. -/
def Eff.isWrite : Eff → Bool
  | .writeStdin _ _ => true
  | _ => false

/-- Outcomes of the OS calls made by SidecarManager: worker-path resolution,
process spawn, and the stdin write/flush pair of SessionWorker::send. -/
structure SidecarEnv where
  pathOk : Bool
  spawnOk : Bool
  newPid : Pid
  stdinOk : Pid → Bool
  writeOk : Pid → String → Bool
  flushOk : Pid → Bool

/-- The registry state: session id to worker child, one HashMap entry per
running worker. -/
structure SidecarManager where
  workers : List (String × Pid)
deriving DecidableEq

/-- Result, post-state and effect trace of one registry operation. -/
structure SidecarStep where
  result : Except String Unit
  state : SidecarManager
  trace : List Eff

/-- SessionWorker::send — write the JSON line followed by a newline to the
worker stdin and flush. The OS error text carried by the Rust messages is
abstracted away. -/
def sendWorker (env : SidecarEnv) (pid : Pid) (json : String) :
    Except String Unit × List Eff :=
  if !env.stdinOk pid then
    (.error "Worker stdin not available", [])
  else if !env.writeOk pid (json ++ "\n") then
    (.error "Failed to write to worker stdin", [])
  else if !env.flushOk pid then
    (.error "Failed to flush worker stdin", [.writeStdin pid (json ++ "\n")])
  else
    (.ok (), [.writeStdin pid (json ++ "\n")])

/-- The JSON line serialized for a command, as written to a worker stdin. -/
def commandLine (cmd : SidecarCommand) : String :=
  (SidecarCommand.toJson cmd).render ++ "\n"

/-- Duplicate-session error message of start_session. -/
def conflictMsg (sid : String) : String :=
  "Session " ++ sid ++ " already has a running worker"

/-- Unknown-session error message of send_to_session. -/
def notFoundMsg (sid : String) : String :=
  "No worker found for session " ++ sid

/-- SidecarManager::start_session — refuse a duplicate id, resolve the
worker path, spawn the child, serialize the command, send it, and only
then insert the registry entry. -/
def SidecarManager.start_session (env : SidecarEnv) (m : SidecarManager)
    (cmd : SidecarCommand) : SidecarStep :=
  match cmd with
  | .StartSession sid _ _ _ _ _ =>
    if (assocLookup m.workers sid).isSome then
      ⟨.error (conflictMsg sid), m, []⟩
    else if !env.pathOk then
      ⟨.error "Worker not found", m, []⟩
    else if !env.spawnOk then
      ⟨.error ("Failed to spawn worker for " ++ sid), m, []⟩
    else
      let pid := env.newPid
      match sendWorker env pid ((SidecarCommand.toJson cmd).render) with
      | (.ok _, tr) => ⟨.ok (), ⟨(sid, pid) :: m.workers⟩, .spawn pid :: tr⟩
      | (.error e, tr) => ⟨.error e, m, .spawn pid :: tr⟩
  | _ => ⟨.error "Expected StartSession command", m, []⟩

/-- command_session_id — extract the session id of a command. -/
def command_session_id : SidecarCommand → Option String
  | .StartSession sid _ _ _ _ _ => some sid
  | .SendMessage sid _ => some sid
  | .AbortSession sid => some sid
  | .EndSession sid => some sid
  | .ToolApprovalResponse _ _ _ => none

/-- SidecarManager::send_to_session — look the worker up, serialize, send. -/
def SidecarManager.send_to_session (env : SidecarEnv) (m : SidecarManager)
    (sid : String) (cmd : SidecarCommand) : SidecarStep :=
  match assocLookup m.workers sid with
  | none => ⟨.error (notFoundMsg sid), m, []⟩
  | some pid =>
    match sendWorker env pid ((SidecarCommand.toJson cmd).render) with
    | (.ok _, tr) => ⟨.ok (), m, tr⟩
    | (.error e, tr) => ⟨.error e, m, tr⟩

/-- SidecarManager::send_command — extract the session id, then delegate. -/
def SidecarManager.send_command (env : SidecarEnv) (m : SidecarManager)
    (cmd : SidecarCommand) : SidecarStep :=
  match command_session_id cmd with
  | none => ⟨.error "Command has no session ID", m, []⟩
  | some sid => SidecarManager.send_to_session env m sid cmd

/-- SidecarManager::remove_session — take the entry out of the map if it is
present, then SessionWorker::kill (kill, then wait, failures ignored).
Absent id: no-op. -/
def SidecarManager.remove_session (m : SidecarManager) (sid : String) :
    SidecarManager × List Eff :=
  match assocLookup m.workers sid with
  | some pid => (⟨assocErase m.workers sid⟩, [.kill pid, .wait pid])
  | none => (m, [])

/-- SidecarManager::active_session_ids — snapshot of registered ids. -/
def SidecarManager.active_session_ids (m : SidecarManager) : List String :=
  m.workers.map Prod.fst

/-- SidecarManager::shutdown — drain the map and kill every worker. -/
def SidecarManager.shutdown (m : SidecarManager) : SidecarManager × List Eff :=
  (⟨[]⟩, m.workers.flatMap fun p => [Eff.kill p.2, Eff.wait p.2])

/-- Commands layer abort_agent_session (commands/agents.rs) — best-effort
send of AbortSession (result discarded), then remove_session. -/
def abort_agent_session (env : SidecarEnv) (m : SidecarManager)
    (sid : String) : SidecarManager × List Eff :=
  let sent := SidecarManager.send_command env m (SidecarCommand.AbortSession sid)
  let removed := SidecarManager.remove_session sent.state sid
  (removed.1, sent.trace ++ removed.2)

/-! ## Event relay (read_worker_output in sidecar/manager.rs) -/

/-- One result of BufReader::lines on the worker stdout: a line or an
IO error; the end of the list is end-of-stream. -/
abbrev LineRead := Except String String

/-- read_worker_output — the relay loop over a worker stdout: a read error
breaks the loop; a blank line is skipped; a line decoding as an event is
emitted (emit failure is only logged); a malformed line is skipped. The
returned list is the sequence of payloads forwarded to the event sink. -/
def read_worker_output : List LineRead → List AgentEventPayload
  | [] => []
  | .error _ :: _ => []
  | .ok line :: rest =>
    let trimmed := rustTrim line
    if trimmed = "" then read_worker_output rest
    else
      match decodeEvent trimmed with
      | some ev => ⟨ev⟩ :: read_worker_output rest
      | none => read_worker_output rest

/-! ## Base64 (the base64 crate STANDARD engine, as used by pty/manager.rs)

Bytes are Nats below 256. -/

/-- The standard base64 alphabet. -/
def b64Alphabet : List Char :=
  "ABCDEFGHIJKLMNOPQRSTUVWXYZabcdefghijklmnopqrstuvwxyz0123456789+/".toList

/-- Character of a six-bit group. -/
def sextetChar (n : Nat) : Char :=
  b64Alphabet.getD n 'A'

/-- Base64-encode a byte list (BASE64.encode), with `=` padding. -/
def b64encodeChars : List Nat → List Char
  | [] => []
  | [a] =>
    let a := a % 256
    [sextetChar (a / 4), sextetChar (a % 4 * 16), '=', '=']
  | [a, b] =>
    let a := a % 256
    let b := b % 256
    [sextetChar (a / 4), sextetChar (a % 4 * 16 + b / 16),
     sextetChar (b % 16 * 4), '=']
  | a :: b :: c :: rest =>
    let a := a % 256
    let b := b % 256
    let c := c % 256
    sextetChar (a / 4) :: sextetChar (a % 4 * 16 + b / 16)
      :: sextetChar (b % 16 * 4 + c / 64) :: sextetChar (c % 64)
      :: b64encodeChars rest

/-- Base64 encoding to a string. -/
def b64encode (bytes : List Nat) : String :=
  ⟨b64encodeChars bytes⟩

/-- Value of one base64 alphabet character. -/
def b64CharVal (c : Char) : Option Nat :=
  if 'A' ≤ c ∧ c ≤ 'Z' then some (c.toNat - 65)
  else if 'a' ≤ c ∧ c ≤ 'z' then some (c.toNat - 97 + 26)
  else if '0' ≤ c ∧ c ≤ '9' then some (c.toNat - 48 + 52)
  else if c = '+' then some 62
  else if c = '/' then some 63
  else none

/-- Base64-decode (BASE64.decode, strict: canonical padding required,
non-zero trailing bits rejected, invalid characters rejected). -/
def b64decodeChars : List Char → Option (List Nat)
  | [] => some []
  | [w, x, '=', '='] =>
    match b64CharVal w, b64CharVal x with
    | some a, some b => if b % 16 = 0 then some [a * 4 + b / 16] else none
    | _, _ => none
  | [w, x, y, '='] =>
    match b64CharVal w, b64CharVal x, b64CharVal y with
    | some a, some b, some c =>
      if c % 4 = 0 then some [a * 4 + b / 16, b % 16 * 16 + c / 4] else none
    | _, _, _ => none
  | w :: x :: y :: z :: rest =>
    if z = '=' then none
    else
      match b64CharVal w, b64CharVal x, b64CharVal y, b64CharVal z with
      | some a, some b, some c, some d =>
        (b64decodeChars rest).map fun tail =>
          (a * 4 + b / 16) :: (b % 16 * 16 + c / 4) :: (c % 4 * 64 + d) :: tail
      | _, _, _, _ => none
  | _ => none

/-- Base64 decoding from a string. -/
def b64decode (s : String) : Option (List Nat) :=
  b64decodeChars s.toList

/-! ## PTY session registry (pty/manager.rs, pty/types.rs) -/

/-- Events sent from PTY sessions to the frontend via the Tauri Channel
(pty/types.rs, enum PtyEvent). -/
inductive PtyEvent where
  | Output (data : String)
  | Exit (code : Int)
  | Error (message : String)
deriving DecidableEq

/-- Observable OS effects of a PTY registry operation. -/
inductive PtyEff where
  | openPty
  | spawnChild (pid : Pid)
  | ptyWrite (tid : String) (bytes : List Nat)
  | resized (tid : String) (rows : Nat) (cols : Nat)
  | killChild (pid : Pid)
  | waitChild (pid : Pid)
deriving DecidableEq

/-- Outcomes of the OS calls made by PtyManager. -/
structure PtyEnv where
  openOk : Bool
  spawnOk : Bool
  cloneReaderOk : Bool
  takeWriterOk : Bool
  newPid : Pid
  writeOk : String → List Nat → Bool
  flushOk : String → Bool
  resizeOk : String → Bool

/-- The PTY registry state: terminal id to spawned child. The master and
writer handles of a PtySession are owned exclusively by the entry and
carry no further observable state here. -/
structure PtyManager where
  sessions : List (String × Pid)
deriving DecidableEq

/-- Result, post-state and effect trace of one PTY registry operation. -/
structure PtyStep where
  result : Except String Unit
  state : PtyManager
  trace : List PtyEff

/-- Duplicate-terminal error message of start_terminal. -/
def ptyConflictMsg (tid : String) : String :=
  "PTY session already exists: " ++ tid

/-- Unknown-terminal error message of write_input and resize. -/
def ptyNotFoundMsg (tid : String) : String :=
  "PTY session not found: " ++ tid

/-- PtyManager::start_terminal — refuse a duplicate id, open the PTY pair,
spawn the child on the slave side, drop the slave, clone a reader and take
the writer from the master, spawn the reader thread, and insert the entry.
The rows, cols and cwd parameters configure the PTY but do not enter the
registry map. -/
def PtyManager.start_terminal (env : PtyEnv) (m : PtyManager)
    (session_id : String) (cwd : String) (rows : Nat) (cols : Nat) : PtyStep :=
  if (assocLookup m.sessions session_id).isSome then
    ⟨.error (ptyConflictMsg session_id), m, []⟩
  else if !env.openOk then
    ⟨.error "Failed to open PTY", m, []⟩
  else if !env.spawnOk then
    ⟨.error "Failed to spawn claude", m, [.openPty]⟩
  else if !env.cloneReaderOk then
    ⟨.error "Failed to clone PTY reader", m, [.openPty, .spawnChild env.newPid]⟩
  else if !env.takeWriterOk then
    ⟨.error "Failed to take PTY writer", m, [.openPty, .spawnChild env.newPid]⟩
  else
    ⟨.ok (), ⟨(session_id, env.newPid) :: m.sessions⟩,
     [.openPty, .spawnChild env.newPid]⟩

/-- PtyManager::write_input — look the session up, base64-decode the data,
write the raw bytes to the PTY writer and flush. -/
def PtyManager.write_input (env : PtyEnv) (m : PtyManager)
    (session_id : String) (data : String) : PtyStep :=
  match assocLookup m.sessions session_id with
  | none => ⟨.error (ptyNotFoundMsg session_id), m, []⟩
  | some _ =>
    match b64decode data with
    | none => ⟨.error "Base64 decode error", m, []⟩
    | some bytes =>
      if !env.writeOk session_id bytes then
        ⟨.error "Write error", m, []⟩
      else if !env.flushOk session_id then
        ⟨.error "Flush error", m, [.ptyWrite session_id bytes]⟩
      else
        ⟨.ok (), m, [.ptyWrite session_id bytes]⟩

/-- PtyManager::resize — look the session up and resize the master. -/
def PtyManager.resize (env : PtyEnv) (m : PtyManager)
    (session_id : String) (rows : Nat) (cols : Nat) : PtyStep :=
  match assocLookup m.sessions session_id with
  | none => ⟨.error (ptyNotFoundMsg session_id), m, []⟩
  | some _ =>
    if !env.resizeOk session_id then
      ⟨.error "Resize error", m, []⟩
    else
      ⟨.ok (), m, [.resized session_id rows cols]⟩

/-- PtyManager::close — remove the entry if present and kill the child
(kill then wait, failures ignored); absent id is a no-op. -/
def PtyManager.close (m : PtyManager) (session_id : String) :
    PtyManager × List PtyEff :=
  match assocLookup m.sessions session_id with
  | some pid => (⟨assocErase m.sessions session_id⟩, [.killChild pid, .waitChild pid])
  | none => (m, [])

/-- PtyManager::shutdown — close every registered terminal. -/
def PtyManager.shutdown (m : PtyManager) : PtyManager × List PtyEff :=
  (⟨[]⟩, m.sessions.flatMap fun p => [PtyEff.killChild p.2, PtyEff.waitChild p.2])

/-! ## PTY reader thread protocol (the closure spawned by start_terminal) -/

/-- One result of reader.read on the master: a chunk of bytes (empty chunk
is the zero-byte end-of-stream read) or a read error. -/
inductive PtyRead where
  | ok (chunk : List Nat)
  | err (msg : String)

/-- The PTY reader loop: read; on zero bytes send one Exit(0) and stop; on
a chunk base64-encode it and send one Output, stopping if the channel send
fails; on a read error send one Error and stop. The sendOk argument gives
the channel send outcome for the k-th send; the Exit and Error send results
are discarded by the code. The returned list is the sequence of events the
thread hands to the channel. -/
def ptyReaderRun (sendOk : Nat → Bool) (k : Nat) : List PtyRead → List PtyEvent
  | [] => []
  | .ok [] :: _ => [.Exit 0]
  | .ok chunk :: rest =>
    let ev := PtyEvent.Output (b64encode chunk)
    if sendOk k then ev :: ptyReaderRun sendOk (k + 1) rest
    else [ev]
  | .err msg :: _ => [.Error ("Read error: " ++ msg)]

/-! ## System-level step relation for the session registry

The relay threads run beside the registry; this transition system makes
the separation provable: a relay observation can emit events and stop its
own thread, but only registry operations can touch the worker map. -/

/-- What one stdout relay thread can observe in one step. -/
inductive RelayObs where
  | line (s : String)
  | readErr (e : String)
  | eof

/-- System state: the registry, the set of live stdout relay threads, and
the log of payloads forwarded to the application event sink. -/
structure SysState where
  mgr : SidecarManager
  relayRunning : List String
  emitted : List (String × AgentEventPayload)

/-- System operations: the registry calls plus one observation step of one
relay thread. -/
inductive SysOp where
  | opStart (env : SidecarEnv) (cmd : SidecarCommand)
  | opSendCommand (env : SidecarEnv) (cmd : SidecarCommand)
  | opSendTo (env : SidecarEnv) (sid : String) (cmd : SidecarCommand)
  | opRemove (sid : String)
  | opShutdown
  | opRelay (sid : String) (r : RelayObs)

/-- Whether a trace records a successful child spawn (the stdout reader
thread is launched right after the spawn, before the initial send). -/
def traceSpawned (tr : List Eff) : Bool :=
  tr.any fun e =>
    match e with
    | .spawn _ => true
    | _ => false

/-- One system step. -/
def sysStep (s : SysState) : SysOp → SysState
  | .opStart env cmd =>
    let st := SidecarManager.start_session env s.mgr cmd
    let running :=
      match command_session_id cmd with
      | some sid => if traceSpawned st.trace then sid :: s.relayRunning else s.relayRunning
      | none => s.relayRunning
    { s with mgr := st.state, relayRunning := running }
  | .opSendCommand env cmd =>
    { s with mgr := (SidecarManager.send_command env s.mgr cmd).state }
  | .opSendTo env sid cmd =>
    { s with mgr := (SidecarManager.send_to_session env s.mgr sid cmd).state }
  | .opRemove sid =>
    { s with mgr := (SidecarManager.remove_session s.mgr sid).1 }
  | .opShutdown =>
    { s with mgr := (SidecarManager.shutdown s.mgr).1 }
  | .opRelay sid r =>
    if sid ∈ s.relayRunning then
      match r with
      | .eof => { s with relayRunning := s.relayRunning.erase sid }
      | .readErr _ => { s with relayRunning := s.relayRunning.erase sid }
      | .line l =>
        let trimmed := rustTrim l
        if trimmed = "" then s
        else
          match decodeEvent trimmed with
          | some ev => { s with emitted := s.emitted ++ [(sid, ⟨ev⟩)] }
          | none => s
    else s

/-! ## Registry invariant and witness fixtures -/

/-- Invariant of the session registry: at most one worker per session id. -/
def SidecarManager.Wf (m : SidecarManager) : Prop :=
  (m.workers.map Prod.fst).Nodup

/-- Invariant of the PTY registry: at most one PTY session per terminal id. -/
def PtyManager.Wf (mp : PtyManager) : Prop :=
  (mp.sessions.map Prod.fst).Nodup

instance (m : SidecarManager) : Decidable m.Wf := by
  unfold SidecarManager.Wf
  infer_instance

instance (mp : PtyManager) : Decidable mp.Wf := by
  unfold PtyManager.Wf
  infer_instance

/-- Environment in which every sidecar OS call succeeds. -/
def envAllOk : SidecarEnv :=
  ⟨true, true, 3, fun _ => true, fun _ _ => true, fun _ => true⟩

/-- Environment in which every PTY OS call succeeds. -/
def ptyEnvAllOk : PtyEnv :=
  ⟨true, true, true, true, 3, fun _ _ => true, fun _ => true, fun _ => true⟩

/-- A registry with one worker for session s1 with pid 7. -/
def mgr1 : SidecarManager := ⟨[("s1", 7)]⟩

/-- A PTY registry with one session for terminal t1 with pid 7. -/
def pty1 : PtyManager := ⟨[("t1", 7)]⟩

/-! ## Claim conclusions

Each of the following Prop-valued definitions packages the conclusion of
one claim theorem, so that its witness instance can state it compactly. -/

/-- What remove_session and its caller abort_agent_session do for a
registered session: remove_session takes the entry out of the map and then
kills and waits; it writes nothing to any worker stdin. The best-effort
AbortSession send (failure ignored) happens in abort_agent_session, before
remove_session runs. -/
def C1Concl (env : SidecarEnv) (m : SidecarManager) (sid : String) (p : Pid) :
    Prop :=
  SidecarManager.remove_session m sid
    = (⟨assocErase m.workers sid⟩, [Eff.kill p, Eff.wait p]) ∧
  (∀ e ∈ (SidecarManager.remove_session m sid).2, e.isWrite = false) ∧
  (abort_agent_session env m sid).1.workers = assocErase m.workers sid ∧
  (env.stdinOk p = true →
    env.writeOk p (commandLine (SidecarCommand.AbortSession sid)) = true →
    env.flushOk p = true →
    (abort_agent_session env m sid).2
      = [Eff.writeStdin p (commandLine (SidecarCommand.AbortSession sid)),
         Eff.kill p, Eff.wait p])

/-- Both registries keep at most one entry per id across every operation,
and a duplicate create is refused with the Conflict error, the registry,
the pre-existing worker and the active id snapshot untouched. -/
def C2Concl (env : SidecarEnv) (envP : PtyEnv) (m : SidecarManager)
    (mp : PtyManager) (cmd : SidecarCommand) (sid tid cwd data pp pr : String)
    (mo : Option String) (mb : Option Rat) (rs : Option String)
    (rows cols : Nat) (p q : Pid) : Prop :=
  (SidecarManager.start_session env m cmd).state.Wf ∧
  (SidecarManager.send_command env m cmd).state.Wf ∧
  (SidecarManager.send_to_session env m sid cmd).state.Wf ∧
  (SidecarManager.remove_session m sid).1.Wf ∧
  (SidecarManager.shutdown m).1.Wf ∧
  (PtyManager.start_terminal envP mp tid cwd rows cols).state.Wf ∧
  (PtyManager.write_input envP mp tid data).state.Wf ∧
  (PtyManager.resize envP mp tid rows cols).state.Wf ∧
  (PtyManager.close mp tid).1.Wf ∧
  (PtyManager.shutdown mp).1.Wf ∧
  (assocLookup m.workers sid = some p →
    SidecarManager.start_session env m
        (SidecarCommand.StartSession sid pp pr mo mb rs)
      = ⟨.error (conflictMsg sid), m, []⟩ ∧
    (SidecarManager.start_session env m
        (SidecarCommand.StartSession sid pp pr mo mb rs)).state.active_session_ids
      = m.active_session_ids) ∧
  (assocLookup mp.sessions tid = some q →
    PtyManager.start_terminal envP mp tid cwd rows cols
      = ⟨.error (ptyConflictMsg tid), mp, []⟩)

/-- Absence of side effects when a command is addressed to an unregistered
session id: the exact NotFound error, the map unchanged and the trace
empty, for send_to_session and for send_command when the command carries
that id. -/
def C3Concl (env : SidecarEnv) (m : SidecarManager) (sid : String)
    (cmd : SidecarCommand) : Prop :=
  SidecarManager.send_to_session env m sid cmd
    = ⟨.error (notFoundMsg sid), m, []⟩ ∧
  (command_session_id cmd = some sid →
    SidecarManager.send_command env m cmd
      = ⟨.error (notFoundMsg sid), m, []⟩)

/-- The relay forwards exactly the two decoded events of a
well-formed/malformed/well-formed stdout stream, in order. -/
def C4Concl (l1 l2 l3 sid role content : String) (th : Option String)
    (tc us : Option Json) (sid2 err : String) : Prop :=
  read_worker_output [.ok l1, .ok l2, .ok l3]
    = [⟨.Message sid role content th tc us⟩, ⟨.SessionFailed sid2 err⟩]

/-- start_session succeeds exactly when path resolution, the spawn and the
initial stdin write and flush all succeed; on success the entry is
registered and the trace is the spawn followed by the one initial line; on
any failure the map is unchanged. -/
def C6Concl (env : SidecarEnv) (m : SidecarManager) (sid pp pr : String)
    (mo : Option String) (mb : Option Rat) (rs : Option String) : Prop :=
  ((SidecarManager.start_session env m
      (SidecarCommand.StartSession sid pp pr mo mb rs)).result = .ok () ↔
    (env.pathOk = true ∧ env.spawnOk = true ∧ env.stdinOk env.newPid = true ∧
     env.writeOk env.newPid
        (commandLine (SidecarCommand.StartSession sid pp pr mo mb rs)) = true ∧
     env.flushOk env.newPid = true)) ∧
  ((SidecarManager.start_session env m
      (SidecarCommand.StartSession sid pp pr mo mb rs)).result = .ok () →
    (SidecarManager.start_session env m
        (SidecarCommand.StartSession sid pp pr mo mb rs)).state
      = ⟨(sid, env.newPid) :: m.workers⟩ ∧
    (SidecarManager.start_session env m
        (SidecarCommand.StartSession sid pp pr mo mb rs)).trace
      = [Eff.spawn env.newPid,
         Eff.writeStdin env.newPid
           (commandLine (SidecarCommand.StartSession sid pp pr mo mb rs))]) ∧
  ((SidecarManager.start_session env m
      (SidecarCommand.StartSession sid pp pr mo mb rs)).result ≠ .ok () →
    (SidecarManager.start_session env m
        (SidecarCommand.StartSession sid pp pr mo mb rs)).state = m)

/-- Serializing the all-optional-None StartSession yields exactly the four
required keys; deserializing a session_completed object without the
totalCostUsd key yields None for total_cost_usd. -/
def C7Concl (fs : List (String × Json)) (sdk : String) (dm : Option Rat) :
    Prop :=
  Json.objKeys (SidecarCommand.toJson
      (SidecarCommand.StartSession "s1" "/tmp" "x" none none none))
    = ["type", "sessionId", "projectPath", "prompt"] ∧
  SidecarEvent.fromJson? (.obj fs)
    = some (.SessionCompleted "s1" sdk none dm)

/-- write_input on an id with no registered PTY session is the NotFound
error with no effect, including right after close of that id, and after
close the id can be reused by start_terminal. -/
def C8Concl (envP : PtyEnv) (mp mp2 : PtyManager) (tid data cwd : String)
    (rows cols : Nat) : Prop :=
  PtyManager.write_input envP mp tid data
    = ⟨.error (ptyNotFoundMsg tid), mp, []⟩ ∧
  PtyManager.write_input envP (PtyManager.close mp2 tid).1 tid data
    = ⟨.error (ptyNotFoundMsg tid), (PtyManager.close mp2 tid).1, []⟩ ∧
  (PtyManager.start_terminal envP (PtyManager.close mp2 tid).1 tid cwd
      rows cols).result = .ok ()

/-- A relay observation — end-of-stream included — never changes the
registry map; end-of-stream stops only the relay thread itself; and the
only system operations that can unregister a session id are remove_session
of that id and shutdown. -/
def C5Concl (s : SysState) (op : SysOp) (sid : String) (r : RelayObs) : Prop :=
  (sysStep s (.opRelay sid r)).mgr = s.mgr ∧
  (sid ∈ s.relayRunning →
    (sysStep s (.opRelay sid .eof)).relayRunning = s.relayRunning.erase sid ∧
    (sysStep s (.opRelay sid .eof)).mgr = s.mgr ∧
    (sysStep s (.opRelay sid .eof)).emitted = s.emitted) ∧
  (op = SysOp.opRemove sid ∨ op = SysOp.opShutdown)

/-- The PTY reader sends the Output events of its chunks in read order and
exactly one terminal event — Exit 0 at end-of-stream, Error on a read
error — after which it sends nothing more. -/
def C9Concl (sendOk : Nat → Bool) (chunks : List (List Nat))
    (rest : List PtyRead) (msg : String) (k : Nat) : Prop :=
  ptyReaderRun sendOk k (chunks.map PtyRead.ok ++ PtyRead.ok [] :: rest)
    = chunks.map (fun c => PtyEvent.Output (b64encode c)) ++ [PtyEvent.Exit 0] ∧
  ptyReaderRun sendOk k (chunks.map PtyRead.ok ++ PtyRead.err msg :: rest)
    = chunks.map (fun c => PtyEvent.Output (b64encode c))
      ++ [PtyEvent.Error ("Read error: " ++ msg)]

/-! ## Association-list lemmas -/

theorem assocLookup_eq_none {α : Type} (l : List (String × α)) (k : String) :
    assocLookup l k = none ↔ k ∉ l.map Prod.fst := by
  induction l with
  | nil => simp [assocLookup]
  | cons hd tl ih =>
    obtain ⟨k2, v⟩ := hd
    by_cases h : k2 = k
    · subst h
      simp [assocLookup]
    · simp [assocLookup, h, ih, Ne.symm h]

theorem assocLookup_assocErase_self {α : Type} (l : List (String × α)) (k : String) :
    assocLookup (assocErase l k) k = none := by
  induction l with
  | nil => simp [assocErase, assocLookup]
  | cons hd tl ih =>
    obtain ⟨k2, v⟩ := hd
    by_cases h : k2 = k
    · subst h
      simpa [assocErase, assocLookup] using ih
    · simpa [assocErase, assocLookup, h] using ih

theorem assocLookup_assocErase_ne {α : Type} (l : List (String × α))
    (k k2 : String) (h : k ≠ k2) :
    assocLookup (assocErase l k2) k = assocLookup l k := by
  induction l with
  | nil => simp [assocErase, assocLookup]
  | cons hd tl ih =>
    obtain ⟨k3, v⟩ := hd
    by_cases h3 : k3 = k2
    · subst h3
      simpa [assocErase, assocLookup, Ne.symm h] using ih
    · by_cases hk : k3 = k
      · subst hk
        simp [assocErase, assocLookup, h3]
      · simpa [assocErase, assocLookup, h3, hk] using ih

theorem keys_assocErase_sublist {α : Type} (l : List (String × α)) (k : String) :
    ((assocErase l k).map Prod.fst).Sublist (l.map Prod.fst) :=
  (List.filter_sublist l).map Prod.fst

theorem nodup_keys_assocErase {α : Type} (l : List (String × α)) (k : String)
    (h : (l.map Prod.fst).Nodup) : ((assocErase l k).map Prod.fst).Nodup :=
  h.sublist (keys_assocErase_sublist l k)

/-! ## State characterization of the registry operations -/

theorem start_session_state (env : SidecarEnv) (m : SidecarManager)
    (cmd : SidecarCommand) :
    (SidecarManager.start_session env m cmd).state = m ∨
    ∃ sid, assocLookup m.workers sid = none ∧
      (SidecarManager.start_session env m cmd).state
        = ⟨(sid, env.newPid) :: m.workers⟩ := by
  cases cmd with
  | StartSession sid pp pr mo mb rs =>
    simp only [SidecarManager.start_session]
    cases hx : assocLookup m.workers sid with
    | some p => simp
    | none =>
      simp only [Option.isSome_none, Bool.false_eq_true, if_false]
      cases hpath : env.pathOk with
      | false => simp
      | true =>
        cases hspawn : env.spawnOk with
        | false => simp
        | true =>
          simp only [Bool.not_true, Bool.false_eq_true, if_false]
          rcases hsw : sendWorker env env.newPid
              ((SidecarCommand.StartSession sid pp pr mo mb rs).toJson.render)
            with ⟨r, tr⟩
          cases r with
          | ok u => right; exact ⟨sid, hx, by simp [hsw]⟩
          | error e => simp [hsw]
  | SendMessage sid msg => left; rfl
  | AbortSession sid => left; rfl
  | EndSession sid => left; rfl
  | ToolApprovalResponse rid allowed up => left; rfl

theorem send_to_session_state (env : SidecarEnv) (m : SidecarManager)
    (sid : String) (cmd : SidecarCommand) :
    (SidecarManager.send_to_session env m sid cmd).state = m := by
  simp only [SidecarManager.send_to_session]
  cases hx : assocLookup m.workers sid with
  | none => rfl
  | some pid =>
    rcases hsw : sendWorker env pid (cmd.toJson.render) with ⟨r, tr⟩
    cases r <;> simp [hsw]

theorem send_command_state (env : SidecarEnv) (m : SidecarManager)
    (cmd : SidecarCommand) :
    (SidecarManager.send_command env m cmd).state = m := by
  simp only [SidecarManager.send_command]
  cases hc : command_session_id cmd with
  | none => rfl
  | some sid => exact send_to_session_state env m sid cmd

theorem remove_session_state (m : SidecarManager) (sid : String) :
    (SidecarManager.remove_session m sid).1 = m ∨
    (SidecarManager.remove_session m sid).1 = ⟨assocErase m.workers sid⟩ := by
  simp only [SidecarManager.remove_session]
  cases hx : assocLookup m.workers sid <;> simp

theorem start_terminal_state (env : PtyEnv) (mp : PtyManager)
    (tid cwd : String) (rows cols : Nat) :
    (PtyManager.start_terminal env mp tid cwd rows cols).state = mp ∨
    (assocLookup mp.sessions tid = none ∧
      (PtyManager.start_terminal env mp tid cwd rows cols).state
        = ⟨(tid, env.newPid) :: mp.sessions⟩) := by
  simp only [PtyManager.start_terminal]
  cases hx : assocLookup mp.sessions tid with
  | some p => simp
  | none =>
    cases env.openOk <;> cases env.spawnOk <;> cases env.cloneReaderOk
      <;> cases env.takeWriterOk <;> simp

theorem write_input_state (env : PtyEnv) (mp : PtyManager)
    (tid data : String) :
    (PtyManager.write_input env mp tid data).state = mp := by
  simp only [PtyManager.write_input]
  cases hx : assocLookup mp.sessions tid with
  | none => rfl
  | some p =>
    cases hd : b64decode data with
    | none => rfl
    | some bytes =>
      cases hw : env.writeOk tid bytes <;> cases hf : env.flushOk tid
        <;> simp [hw, hf]

theorem resize_state (env : PtyEnv) (mp : PtyManager)
    (tid : String) (rows cols : Nat) :
    (PtyManager.resize env mp tid rows cols).state = mp := by
  simp only [PtyManager.resize]
  cases hx : assocLookup mp.sessions tid with
  | none => rfl
  | some p => cases env.resizeOk tid <;> simp

theorem close_state (mp : PtyManager) (tid : String) :
    (PtyManager.close mp tid).1 = mp ∨
    (PtyManager.close mp tid).1 = ⟨assocErase mp.sessions tid⟩ := by
  simp only [PtyManager.close]
  cases hx : assocLookup mp.sessions tid <;> simp

/-! ## Claim C1 -/

/-- C1 is false of the code: for the registry holding session s1 with child
pid 7, remove_session kills and waits but performs no stdin write at all,
so no AbortSession command is sent by remove_session. -/
theorem claim_C1_counterexample :
    (SidecarManager.remove_session ⟨[("s1", 7)]⟩ "s1").2
      = [Eff.kill 7, Eff.wait 7] ∧
    ((SidecarManager.remove_session ⟨[("s1", 7)]⟩ "s1").2.all
      fun e => !e.isWrite) = true := by
  decide

/-- C1 (amended): for every registered session id, remove_session erases
the map entry and force-kills the child and waits for its exit, sending
nothing to the worker; the best-effort AbortSession send (failure ignored)
is made by the caller abort_agent_session before it calls remove_session. -/
theorem claim_C1 (env : SidecarEnv) (m : SidecarManager) (sid : String)
    (p : Pid) (h : assocLookup m.workers sid = some p) :
    C1Concl env m sid p := by
  have hrm : SidecarManager.remove_session m sid
      = (⟨assocErase m.workers sid⟩, [Eff.kill p, Eff.wait p]) := by
    simp [SidecarManager.remove_session, h]
  have habort : abort_agent_session env m sid
      = ((SidecarManager.remove_session m sid).1,
         (SidecarManager.send_command env m
            (SidecarCommand.AbortSession sid)).trace
           ++ (SidecarManager.remove_session m sid).2) := by
    simp only [abort_agent_session]
    rw [send_command_state]
  refine ⟨hrm, ?_, ?_, ?_⟩
  · rw [hrm]
    intro e he
    simp at he
    rcases he with rfl | rfl <;> rfl
  · rw [habort, hrm]
  · intro h1 h2 h3
    rw [habort, hrm]
    have hsend : (SidecarManager.send_command env m
        (SidecarCommand.AbortSession sid)).trace
        = [Eff.writeStdin p (commandLine (SidecarCommand.AbortSession sid))] := by
      simp only [SidecarManager.send_command, command_session_id,
        SidecarManager.send_to_session, h]
      simp only [commandLine] at h2
      simp [sendWorker, h1, h2, h3, commandLine]
    rw [hsend]
    rfl

/-- Witness instance of the amended C1 at a concrete registry. -/
theorem claim_C1_witness : C1Concl envAllOk mgr1 "s1" 7 :=
  claim_C1 envAllOk mgr1 "s1" 7 (by decide)

/-! ## Claim C3 -/

/-- C3: a command addressed to an unregistered session id yields the
NotFound error from send_to_session and send_command, with the registry
map unchanged and nothing written to any worker stdin. -/
theorem claim_C3 (env : SidecarEnv) (m : SidecarManager) (sid : String)
    (cmd : SidecarCommand) (h : assocLookup m.workers sid = none) :
    C3Concl env m sid cmd := by
  constructor
  · simp [SidecarManager.send_to_session, h]
  · intro hc
    simp [SidecarManager.send_command, hc, SidecarManager.send_to_session, h]

/-- Witness instance of C3 on the empty registry. -/
theorem claim_C3_witness :
    C3Concl envAllOk ⟨[]⟩ "s1" (SidecarCommand.SendMessage "s1" "hi") :=
  claim_C3 envAllOk ⟨[]⟩ "s1" (SidecarCommand.SendMessage "s1" "hi") (by decide)

/-! ## Claim C2 -/

/-- C2: every registry operation preserves the one-entry-per-id invariant
of both registries, and a duplicate start_session or start_terminal fails
with the Conflict error, leaving the map, the pre-existing worker and
active_session_ids unchanged. -/
theorem claim_C2 (env : SidecarEnv) (envP : PtyEnv) (m : SidecarManager)
    (mp : PtyManager) (cmd : SidecarCommand)
    (sid tid cwd data pp pr : String) (mo : Option String) (mb : Option Rat)
    (rs : Option String) (rows cols : Nat) (p q : Pid)
    (hm : m.Wf) (hmp : mp.Wf) :
    C2Concl env envP m mp cmd sid tid cwd data pp pr mo mb rs rows cols p q := by
  refine ⟨?_, ?_, ?_, ?_, ?_, ?_, ?_, ?_, ?_, ?_, ?_, ?_⟩
  · rcases start_session_state env m cmd with h | ⟨sid2, hnone, h⟩
    · rw [h]; exact hm
    · rw [h]
      have hni : sid2 ∉ m.workers.map Prod.fst := (assocLookup_eq_none _ _).1 hnone
      simp only [SidecarManager.Wf, List.map_cons]
      exact List.nodup_cons.mpr ⟨hni, hm⟩
  · rw [send_command_state]; exact hm
  · rw [send_to_session_state]; exact hm
  · rcases remove_session_state m sid with h | h <;> rw [h]
    · exact hm
    · exact nodup_keys_assocErase _ _ hm
  · simp [SidecarManager.shutdown, SidecarManager.Wf]
  · rcases start_terminal_state envP mp tid cwd rows cols with h | ⟨hnone, h⟩
      <;> rw [h]
    · exact hmp
    · have hni : tid ∉ mp.sessions.map Prod.fst := (assocLookup_eq_none _ _).1 hnone
      simp only [PtyManager.Wf, List.map_cons]
      exact List.nodup_cons.mpr ⟨hni, hmp⟩
  · rw [write_input_state]; exact hmp
  · rw [resize_state]; exact hmp
  · rcases close_state mp tid with h | h <;> rw [h]
    · exact hmp
    · exact nodup_keys_assocErase _ _ hmp
  · simp [PtyManager.shutdown, PtyManager.Wf]
  · intro hp
    constructor
    · simp [SidecarManager.start_session, hp]
    · simp [SidecarManager.start_session, hp]
  · intro hq
    simp [PtyManager.start_terminal, hq]

/-- Witness instance of C2 on singleton registries where the duplicate-id
branches are exercised. -/
theorem claim_C2_witness :
    C2Concl envAllOk ptyEnvAllOk mgr1 pty1 (SidecarCommand.AbortSession "s1")
      "s1" "t1" "/tmp" "aGk=" "/tmp" "x" none none none 24 80 7 7 :=
  claim_C2 envAllOk ptyEnvAllOk mgr1 pty1 (SidecarCommand.AbortSession "s1")
    "s1" "t1" "/tmp" "aGk=" "/tmp" "x" none none none 24 80 7 7
    (by decide) (by decide)

/-! ## Claim C5 -/

theorem assocLookup_cons_none {α : Type} (k : String) (v : α)
    (l : List (String × α)) (key : String)
    (h : assocLookup ((k, v) :: l) key = none) : assocLookup l key = none := by
  simp only [assocLookup] at h
  split_ifs at h
  exact h

theorem sysStep_relay_mgr (s : SysState) (sid : String) (r : RelayObs) :
    (sysStep s (.opRelay sid r)).mgr = s.mgr := by
  simp only [sysStep]
  by_cases hmem : sid ∈ s.relayRunning
  · cases r with
    | eof => simp [hmem]
    | readErr e => simp [hmem]
    | line l =>
      simp only [hmem, if_true]
      by_cases hb : rustTrim l = ""
      · simp [hb]
      · simp only [hb, if_false]
        cases hd : decodeEvent (rustTrim l) <;> simp [hd]
  · simp [hmem]

/-- C5: a relay step — end-of-stream included — terminates at most its own
reader thread and never touches the registry map; an entry disappears only
through remove_session of that id or shutdown. -/
theorem claim_C5 (s : SysState) (op : SysOp) (sid : String) (r : RelayObs)
    (h1 : assocLookup s.mgr.workers sid ≠ none)
    (h2 : assocLookup (sysStep s op).mgr.workers sid = none) :
    C5Concl s op sid r := by
  refine ⟨sysStep_relay_mgr s sid r, ?_, ?_⟩
  · intro hmem
    refine ⟨by simp [sysStep, hmem], sysStep_relay_mgr s sid .eof, by simp [sysStep, hmem]⟩
  · cases op with
    | opStart env cmd =>
      exfalso
      have hmgr : (sysStep s (.opStart env cmd)).mgr
          = (SidecarManager.start_session env s.mgr cmd).state := rfl
      rw [hmgr] at h2
      rcases start_session_state env s.mgr cmd with h | ⟨sid2, hnone, h⟩
        <;> rw [h] at h2
      · exact h1 h2
      · exact h1 (assocLookup_cons_none _ _ _ _ h2)
    | opSendCommand env cmd =>
      exfalso
      have hmgr : (sysStep s (.opSendCommand env cmd)).mgr
          = (SidecarManager.send_command env s.mgr cmd).state := rfl
      rw [hmgr, send_command_state] at h2
      exact h1 h2
    | opSendTo env sid2 cmd =>
      exfalso
      have hmgr : (sysStep s (.opSendTo env sid2 cmd)).mgr
          = (SidecarManager.send_to_session env s.mgr sid2 cmd).state := rfl
      rw [hmgr, send_to_session_state] at h2
      exact h1 h2
    | opRemove sid2 =>
      by_cases he : sid2 = sid
      · subst he; left; rfl
      · exfalso
        have hmgr : (sysStep s (.opRemove sid2)).mgr
            = (SidecarManager.remove_session s.mgr sid2).1 := rfl
        rw [hmgr] at h2
        rcases remove_session_state s.mgr sid2 with h | h <;> rw [h] at h2
        · exact h1 h2
        · refine h1 ?_
          rw [← assocLookup_assocErase_ne s.mgr.workers sid sid2
            (fun hh => he hh.symm)]
          exact h2
    | opShutdown => right; rfl
    | opRelay sid2 r2 =>
      exfalso
      rw [sysStep_relay_mgr] at h2
      exact h1 h2

/-- Witness instance of C5: removing s1 from the singleton system state. -/
theorem claim_C5_witness :
    C5Concl ⟨mgr1, ["s1"], []⟩ (SysOp.opRemove "s1") "s1"
      (RelayObs.line "hello") :=
  claim_C5 ⟨mgr1, ["s1"], []⟩ (SysOp.opRemove "s1") "s1"
    (RelayObs.line "hello") (by decide) (by decide)

/-! ## Claim C4 -/

/-- C4: over a stdout stream of one well-formed Message line, one malformed
or blank line and one well-formed SessionFailed line, the relay forwards
exactly the two decoded events in order; the malformed line is skipped and
does not terminate the loop. -/
theorem claim_C4 (l1 l2 l3 sid role content : String) (th : Option String)
    (tc us : Option Json) (sid2 err : String)
    (h1 : decodeEvent (rustTrim l1)
      = some (.Message sid role content th tc us))
    (h1ne : rustTrim l1 ≠ "")
    (h2 : rustTrim l2 = "" ∨ decodeEvent (rustTrim l2) = none)
    (h3 : decodeEvent (rustTrim l3) = some (.SessionFailed sid2 err))
    (h3ne : rustTrim l3 ≠ "") :
    C4Concl l1 l2 l3 sid role content th tc us sid2 err := by
  have e3 : read_worker_output [.ok l3] = [⟨.SessionFailed sid2 err⟩] := by
    simp [read_worker_output, h3ne, h3]
  have e2 : read_worker_output [.ok l2, .ok l3] = read_worker_output [.ok l3] := by
    rcases h2 with hb | hm2
    · simp [read_worker_output, hb]
    · by_cases hbb : rustTrim l2 = ""
      · simp [read_worker_output, hbb]
      · simp [read_worker_output, hbb, hm2]
  have e1 : read_worker_output [.ok l1, .ok l2, .ok l3]
      = ⟨.Message sid role content th tc us⟩
        :: read_worker_output [.ok l2, .ok l3] := by
    simp [read_worker_output, h1ne, h1]
  unfold C4Concl
  rw [e1, e2, e3]

/-- Witness instance of C4 on concrete JSON lines. -/
theorem claim_C4_witness :
    C4Concl
      "\x7b\"type\":\"message\",\"sessionId\":\"s1\",\"role\":\"assistant\",\"content\":\"Hello\"\x7d"
      "not json"
      "\x7b\"type\":\"session_failed\",\"sessionId\":\"s1\",\"error\":\"boom\"\x7d"
      "s1" "assistant" "Hello" none none none "s1" "boom" :=
  claim_C4 _ _ _ _ _ _ _ _ _ _ _ (by rfl) (by decide) (Or.inr (by rfl))
    (by rfl) (by decide)

/-! ## Claim C6 -/

/-- C6: start_session registers the worker only after the initial
serialized StartSession line has been written and flushed; when the spawn
or the initial write fails, it returns an error and the registry map is
unchanged. -/
theorem claim_C6 (env : SidecarEnv) (m : SidecarManager) (sid pp pr : String)
    (mo : Option String) (mb : Option Rat) (rs : Option String)
    (h : assocLookup m.workers sid = none) :
    C6Concl env m sid pp pr mo mb rs := by
  unfold C6Concl
  simp only [commandLine, SidecarManager.start_session, sendWorker, h,
    Option.isSome_none, Bool.false_eq_true, if_false]
  generalize (SidecarCommand.StartSession sid pp pr mo mb rs).toJson.render
    = line
  cases hp : env.pathOk <;> cases hs : env.spawnOk
    <;> cases hst : env.stdinOk env.newPid
    <;> cases hw : env.writeOk env.newPid (line ++ "\n")
    <;> cases hf : env.flushOk env.newPid
    <;> simp [hp, hs, hst, hw, hf]

/-- Witness instance of C6 on the empty registry with every OS call
succeeding. -/
theorem claim_C6_witness :
    C6Concl envAllOk ⟨[]⟩ "s1" "/tmp" "x" none none none :=
  claim_C6 envAllOk ⟨[]⟩ "s1" "/tmp" "x" none none none (by decide)

/-! ## Claim C7 -/

set_option maxHeartbeats 1600000 in
/-- C7: the all-optional-None StartSession serializes to exactly the four
required keys, and a session_completed object without totalCostUsd
deserializes with total_cost_usd = None. -/
theorem claim_C7 (fs : List (String × Json)) (sdk : String) (dm : Option Rat)
    (ht : getStr fs "type" = some "session_completed")
    (hs : getStr fs "sessionId" = some "s1")
    (hk : getStr fs "sdkSessionId" = some sdk)
    (hno : assocLookup fs "totalCostUsd" = none)
    (hdm : optNum fs "durationMs" = some dm) :
    C7Concl fs sdk dm := by
  constructor
  · rfl
  · have htcu : optNum fs "totalCostUsd" = some none := by simp [optNum, hno]
    simp [SidecarEvent.fromJson?, ht, hs, hk, htcu, hdm]

/-- Witness instance of C7 on a concrete session_completed object. -/
theorem claim_C7_witness :
    C7Concl [("type", Json.str "session_completed"),
             ("sessionId", Json.str "s1"),
             ("sdkSessionId", Json.str "sdk-1")] "sdk-1" none :=
  claim_C7 _ _ _ (by rfl) (by rfl) (by rfl) (by rfl) (by rfl)

/-! ## Claim C8 -/

/-- C8: write_input to an unregistered terminal id — before any
start_terminal and right after close — is the NotFound error with no
effect, and after close the id is reusable by start_terminal. -/
theorem claim_C8 (envP : PtyEnv) (mp mp2 : PtyManager)
    (tid data cwd : String) (rows cols : Nat)
    (h1 : assocLookup mp.sessions tid = none)
    (ho : envP.openOk = true) (hsp : envP.spawnOk = true)
    (hc : envP.cloneReaderOk = true) (htw : envP.takeWriterOk = true) :
    C8Concl envP mp mp2 tid data cwd rows cols := by
  have hclose : assocLookup (PtyManager.close mp2 tid).1.sessions tid = none := by
    simp only [PtyManager.close]
    cases hx : assocLookup mp2.sessions tid
      <;> simp [hx, assocLookup_assocErase_self]
  refine ⟨?_, ?_, ?_⟩
  · simp [PtyManager.write_input, h1]
  · simp [PtyManager.write_input, hclose]
  · simp [PtyManager.start_terminal, hclose, ho, hsp, hc, htw]

/-- Witness instance of C8: t1 absent from one registry and closed in the
other. -/
theorem claim_C8_witness :
    C8Concl ptyEnvAllOk ⟨[]⟩ pty1 "t1" "aGk=" "/tmp" 24 80 :=
  claim_C8 ptyEnvAllOk ⟨[]⟩ pty1 "t1" "aGk=" "/tmp" 24 80
    (by decide) (by decide) (by decide) (by decide) (by decide)

/-! ## Claim C9 -/

theorem ptyReaderRun_chunks (sendOk : Nat → Bool)
    (hsend : ∀ n, sendOk n = true) (chunks : List (List Nat))
    (hne : ∀ c ∈ chunks, c ≠ []) (k : Nat) (tail : List PtyRead) :
    ptyReaderRun sendOk k (chunks.map PtyRead.ok ++ tail)
      = chunks.map (fun c => PtyEvent.Output (b64encode c))
        ++ ptyReaderRun sendOk (k + chunks.length) tail := by
  induction chunks generalizing k with
  | nil => simp
  | cons c cs ih =>
    have hc : c ≠ [] := hne c (by simp)
    cases c with
    | nil => exact absurd rfl hc
    | cons a t =>
      simp only [List.map_cons, List.cons_append, ptyReaderRun, hsend k,
        if_true, List.append_eq]
      rw [ih (fun x hx => hne x (by simp [hx])) (k + 1)]
      have harg : k + 1 + cs.length = k + (cs.length + 1) := by omega
      rw [harg]
      simp

/-- C9: with a live channel, the reader thread sends the Output events of
its non-empty chunks in read order and then exactly one terminal event —
Exit 0 on the zero-byte read, Error on a read error — and nothing after. -/
theorem claim_C9 (sendOk : Nat → Bool) (chunks : List (List Nat))
    (rest : List PtyRead) (msg : String) (k : Nat)
    (hsend : ∀ n, sendOk n = true) (hne : ∀ c ∈ chunks, c ≠ []) :
    C9Concl sendOk chunks rest msg k := by
  constructor
  · rw [ptyReaderRun_chunks sendOk hsend chunks hne k (PtyRead.ok [] :: rest)]
    simp [ptyReaderRun]
  · rw [ptyReaderRun_chunks sendOk hsend chunks hne k (PtyRead.err msg :: rest)]
    simp [ptyReaderRun]

/-- Witness instance of C9 on one two-byte chunk. -/
theorem claim_C9_witness :
    C9Concl (fun _ => true) [[104, 105]] [] "oops" 0 :=
  claim_C9 (fun _ => true) [[104, 105]] [] "oops" 0 (fun _ => rfl) (by decide)

/-! ## Claim C10 -/

/-- C10: every Exit event the PTY reader thread ever sends carries exit
code 0, whatever the stream and channel behavior; the child exit status is
never consulted. -/
theorem claim_C10 (sendOk : Nat → Bool) (k : Nat) (rs : List PtyRead)
    (code : Int) (h : PtyEvent.Exit code ∈ ptyReaderRun sendOk k rs) :
    code = 0 := by
  induction rs generalizing k with
  | nil => simp [ptyReaderRun] at h
  | cons r rest ih =>
    cases r with
    | ok chunk =>
      cases chunk with
      | nil =>
        simp [ptyReaderRun] at h
        exact h
      | cons a t =>
        simp only [ptyReaderRun] at h
        by_cases hs : sendOk k = true
        · simp [hs] at h
          exact ih (k + 1) h
        · simp [hs] at h
    | err m => simp [ptyReaderRun] at h

/-- Witness instance of C10 at the one-read end-of-stream stream. -/
theorem claim_C10_witness :
    PtyEvent.Exit 0 ∈ ptyReaderRun (fun _ => true) 0 [PtyRead.ok []] ∧
    (0 : Int) = 0 :=
  ⟨by decide, claim_C10 (fun _ => true) 0 [PtyRead.ok []] 0 (by decide)⟩

end Central
